import Mathlib

/-!
A verification development for the grid-generation program (`src/main.rs`).

The program turns a declarative description of infinite line grids into an
SVG document: for each grid (an infinite family of parallel, evenly spaced
lines at an arbitrary angle through a center point) it computes the finite
list of line segments covering a rectangular viewport.

The embedding below models `f64` values as real numbers (exact arithmetic),
Rust panics (`assert!`) as error values of an `Except` monad, and the SVG
document as a plain structure holding exactly the data the program writes
into the document (viewBox, clip rectangle, stroke defaults, and the per-grid
groups of line segments).
-/

namespace GridGen

open Real (pi)

/-- `std::f64::consts::FRAC_1_SQRT_2`, idealized as the exact real `1/√2`. -/
noncomputable def FRAC_1_SQRT_2 : ℝ := (Real.sqrt 2)⁻¹

/-- `Rect` (main.rs lines 148–155): a rectangle given by its extents. -/
structure Rect where
  min_x : ℝ
  max_x : ℝ
  min_y : ℝ
  max_y : ℝ

/-- `Grid` (main.rs lines 157–175): one infinite grid family. -/
structure Grid where
  cx : ℝ
  cy : ℝ
  step : ℝ
  center_position : ℝ
  theta : ℝ
  stroke : Option String
  stroke_width : Option ℝ

/-- `GridCollection` (main.rs lines 29–40): the whole input document. -/
structure GridCollection where
  bounds : Rect
  clip : Option Rect
  stroke : Option String
  stroke_width : Option ℝ
  grids : List Grid

/-- One SVG `Line` element, as set at main.rs lines 113–118 / 133–138. -/
structure Segment where
  x1 : ℝ
  x2 : ℝ
  y1 : ℝ
  y2 : ℝ

/-- One per-grid `Group` (main.rs lines 94–100): the optional stroke
overrides together with the grid's line segments. -/
structure GridGroup where
  stroke : Option String
  stroke_width : Option ℝ
  segments : List Segment

/-- The data the program writes into the SVG document (main.rs lines 57–81,
142–144): the viewBox from `self.bounds`, the clip-path rectangle, the
resolved default stroke, the optional default stroke width, and the groups. -/
structure SvgDocument where
  viewBox : ℝ × ℝ × ℝ × ℝ
  clipRect : ℝ × ℝ × ℝ × ℝ
  stroke : String
  stroke_width : Option ℝ
  groups : List GridGroup

/-- The ways `to_svg` can panic, modeled as error values: the two viewport
asserts (lines 45–56), the `assert_ne!(step, 0.0)` (line 85), the angle-range
assert in `cos_sin_degrees` (line 179), and the two trig-magnitude asserts
(lines 103 and 123). -/
inductive GenError where
  | invalidViewport
  | invalidGrid
  | angleAssert
  | sinAssert
  | cosAssert

/-- `f64::rem_euclid` idealized over ℝ (for a positive modulus the result is
the least non-negative representative). -/
noncomputable def remEuclid (a b : ℝ) : ℝ := a - b * ⌊a / b⌋

/-- Lines 83–89: `theta` after `rem_euclid(360.0)` and the `>= 180` reduction. -/
noncomputable def normTheta (theta : ℝ) : ℝ :=
  if 180 ≤ remEuclid theta 360 then remEuclid theta 360 - 180 else remEuclid theta 360

/-- Lines 84–89: `step` after the `>= 180` reduction negates it. -/
noncomputable def normStep (theta step : ℝ) : ℝ :=
  if 180 ≤ remEuclid theta 360 then -step else step

/-- Rust's `as i64` conversion on a finite `f64`: truncation toward zero. -/
noncomputable def trunc (x : ℝ) : ℤ := if 0 ≤ x then ⌊x⌋ else ⌈x⌉

/-- Lines 110 / 130: `((vmin - i0.max(i1)) / d - 1.0) as i64`. -/
noncomputable def minIdx (vmin i0 i1 d : ℝ) : ℤ := trunc ((vmin - max i0 i1) / d - 1)

/-- Lines 111 / 131: `((vmax - i0.min(i1)) / d + 1.0) as i64`. -/
noncomputable def maxIdx (vmax i0 i1 d : ℝ) : ℤ := trunc ((vmax - min i0 i1) / d + 1)

/-- The inclusive iteration `lo..=hi` of the `for` loops (lines 112, 132). -/
def idxRange (lo hi : ℤ) : List ℤ :=
  (List.range (hi + 1 - lo).toNat).map (fun k : ℕ => lo + (k : ℤ))

/-- `cos_sin_degrees` (main.rs lines 177–192), with its range assert modeled
as an error.  The four axis-aligned angles get exact closed-form values; all
other angles go through radian conversion and the transcendental functions. -/
noncomputable def cos_sin_degrees (theta : ℝ) : Except GenError (ℝ × ℝ) :=
  if ¬ (0 ≤ theta ∧ theta < 180) then .error .angleAssert
  else if theta = 0 then .ok (1, 0)
  else if theta = 45 then .ok (FRAC_1_SQRT_2, FRAC_1_SQRT_2)
  else if theta = 90 then .ok (0, 1)
  else if theta = 135 then .ok (-FRAC_1_SQRT_2, FRAC_1_SQRT_2)
  else .ok (Real.cos (theta * pi / 180), Real.sin (theta * pi / 180))

/-- Lines 101–120, the "more horizontal than vertical" branch: intercepts on
the `min_x` and `max_x` lines, y-spacing `dy`, and one segment per index. -/
noncomputable def horizSegments (b : Rect) (cos sin cx cy step : ℝ) : List Segment :=
  let cot := cos / sin
  let i0 := cy + cot * (cx - b.min_x)
  let i1 := cy + cot * (cx - b.max_x)
  let dy := |step / sin|
  (idxRange (minIdx b.min_y i0 i1 dy) (maxIdx b.max_y i0 i1 dy)).map
    (fun i : ℤ =>
      { x1 := b.min_x, x2 := b.max_x, y1 := i0 + dy * (i : ℝ), y2 := i1 + dy * (i : ℝ) })

/-- Lines 121–140, the "more vertical than horizontal" branch: intercepts on
the `min_y` and `max_y` lines, x-spacing `dx`, and one segment per index. -/
noncomputable def vertSegments (b : Rect) (cos sin cx cy step : ℝ) : List Segment :=
  let tan := sin / cos
  let i0 := cx + tan * (cy - b.min_y)
  let i1 := cx + tan * (cy - b.max_y)
  let dx := |step / cos|
  (idxRange (minIdx b.min_x i0 i1 dx) (maxIdx b.max_x i0 i1 dx)).map
    (fun i : ℤ =>
      { x1 := i0 + dx * (i : ℝ), x2 := i1 + dx * (i : ℝ), y1 := b.min_y, y2 := b.max_y })

/-- Lines 82–142: the body of the per-grid loop of `to_svg` — zero-step
check, angle normalization, trigonometry, center correction, axis selection,
and the selected branch's segments. -/
noncomputable def projectGrid (b : Rect) (g : Grid) : Except GenError (List Segment) :=
  if g.step = 0 then .error .invalidGrid
  else
    match cos_sin_degrees (normTheta g.theta) with
    | .error e => .error e
    | .ok cs =>
      let cx := g.cx - cs.1 * normStep g.theta g.step * g.center_position
      let cy := g.cy - cs.2 * normStep g.theta g.step * g.center_position
      if 45 ≤ normTheta g.theta ∧ normTheta g.theta < 135 then
        if ¬ FRAC_1_SQRT_2 ≤ cs.2 then .error .sinAssert
        else .ok (horizSegments b cs.1 cs.2 cx cy (normStep g.theta g.step))
      else
        if ¬ FRAC_1_SQRT_2 ≤ |cs.1| then .error .cosAssert
        else .ok (vertSegments b cs.1 cs.2 cx cy (normStep g.theta g.step))

/-- The loop over `self.grids` (line 82), accumulating one group per grid in
input order; the first panic aborts the whole run. -/
noncomputable def projectGrids (b : Rect) : List Grid → Except GenError (List GridGroup)
  | [] => .ok []
  | g :: gs =>
    match projectGrid b g with
    | .error e => .error e
    | .ok segs =>
      match projectGrids b gs with
      | .error e => .error e
      | .ok rest => .ok ({ stroke := g.stroke, stroke_width := g.stroke_width, segments := segs } :: rest)

/-- Line 44: `let bounds = self.clip.unwrap_or(self.bounds)` — the rectangle
all geometry and the clip path use. -/
def effectiveViewport (c : GridCollection) : Rect := c.clip.getD c.bounds

/-- `GridCollection::to_svg` (main.rs lines 43–145): validate the effective
viewport, then build the document — viewBox from `self.bounds` (lines 57–66),
clip rectangle from the effective viewport (lines 67–77), default stroke
resolution (line 78), and one group per grid. -/
noncomputable def to_svg (c : GridCollection) : Except GenError SvgDocument :=
  if (effectiveViewport c).min_x < (effectiveViewport c).max_x then
    if (effectiveViewport c).min_y < (effectiveViewport c).max_y then
      match projectGrids (effectiveViewport c) c.grids with
      | .error e => .error e
      | .ok groups =>
        .ok { viewBox := (c.bounds.min_x, c.bounds.min_y,
                          c.bounds.max_x - c.bounds.min_x, c.bounds.max_y - c.bounds.min_y),
              clipRect := ((effectiveViewport c).min_x, (effectiveViewport c).min_y,
                           (effectiveViewport c).max_x - (effectiveViewport c).min_x,
                           (effectiveViewport c).max_y - (effectiveViewport c).min_y),
              stroke := c.stroke.getD "black",
              stroke_width := c.stroke_width,
              groups := groups }
    else .error .invalidViewport
  else .error .invalidViewport

/-- The segment list of a successful projection (empty on failure); used to
state facts about the segments a grid contributes. -/
def resultSegments : Except GenError (List Segment) → List Segment
  | .ok segs => segs
  | .error _ => []

/-! ### Truncation toward zero -/

theorem trunc_mono : Monotone trunc := by
  intro x y hxy
  rw [trunc, trunc]
  by_cases hx : 0 ≤ x
  · rw [if_pos hx, if_pos (hx.trans hxy)]
    exact Int.floor_mono hxy
  · rw [if_neg hx]
    by_cases hy : 0 ≤ y
    · rw [if_pos hy]
      have h1 : ⌈x⌉ ≤ 0 := Int.ceil_le.mpr (by push_cast; linarith [not_le.mp hx])
      have h2 : 0 ≤ ⌊y⌋ := Int.floor_nonneg.mpr hy
      omega
    · rw [if_neg hy]
      exact Int.ceil_mono hxy

theorem trunc_sub_one_le (q : ℝ) : (trunc (q - 1) : ℝ) ≤ q := by
  rw [trunc]
  by_cases h : 0 ≤ q - 1
  · rw [if_pos h]
    have := Int.floor_le (q - 1)
    linarith
  · rw [if_neg h]
    have := Int.ceil_lt_add_one (q - 1)
    linarith

theorem le_trunc_add_one (q : ℝ) : q ≤ (trunc (q + 1) : ℝ) := by
  rw [trunc]
  by_cases h : 0 ≤ q + 1
  · rw [if_pos h]
    have := Int.lt_floor_add_one (q + 1)
    linarith
  · rw [if_neg h]
    have := Int.le_ceil (q + 1)
    linarith

theorem trunc_sub_one_eq (q : ℝ) :
    trunc (q - 1) = if 1 ≤ q then ⌊q⌋ - 1 else ⌈q⌉ - 1 := by
  rw [trunc]
  by_cases h : 1 ≤ q
  · rw [if_pos (by linarith : (0:ℝ) ≤ q - 1), if_pos h, Int.floor_sub_one]
  · rw [if_neg (by rw [not_le] at h ⊢; linarith), if_neg h, Int.ceil_sub_one]

theorem trunc_add_one_eq (q : ℝ) :
    trunc (q + 1) = if -1 ≤ q then ⌊q⌋ + 1 else ⌈q⌉ + 1 := by
  rw [trunc]
  by_cases h : (-1 : ℝ) ≤ q
  · rw [if_pos (by linarith : (0:ℝ) ≤ q + 1), if_pos h]
    have := Int.floor_add_int q 1
    push_cast at this
    exact_mod_cast this
  · rw [if_neg (by rw [not_le] at h ⊢; linarith), if_neg h]
    have := Int.ceil_add_int q 1
    exact_mod_cast this

/-! ### Index range facts -/

theorem mem_idxRange {lo hi i : ℤ} : i ∈ idxRange lo hi ↔ lo ≤ i ∧ i ≤ hi := by
  simp only [idxRange, List.mem_map, List.mem_range]
  constructor
  · rintro ⟨k, hk, rfl⟩
    constructor
    · omega
    · omega
  · rintro ⟨h1, h2⟩
    exact ⟨(i - lo).toNat, by omega, by omega⟩

theorem minIdx_le {vmin i0 i1 d : ℝ} (hd : 0 < d) :
    d * (minIdx vmin i0 i1 d : ℝ) ≤ vmin - max i0 i1 := by
  have h := trunc_sub_one_le ((vmin - max i0 i1) / d)
  rw [minIdx]
  calc d * (trunc ((vmin - max i0 i1) / d - 1) : ℝ)
      ≤ d * ((vmin - max i0 i1) / d) := mul_le_mul_of_nonneg_left h hd.le
    _ = vmin - max i0 i1 := by field_simp

theorem le_maxIdx {vmax i0 i1 d : ℝ} (hd : 0 < d) :
    vmax - min i0 i1 ≤ d * (maxIdx vmax i0 i1 d : ℝ) := by
  have h := le_trunc_add_one ((vmax - min i0 i1) / d)
  rw [maxIdx]
  calc vmax - min i0 i1
      = d * ((vmax - min i0 i1) / d) := by field_simp
    _ ≤ d * (trunc ((vmax - min i0 i1) / d + 1) : ℝ) := mul_le_mul_of_nonneg_left h hd.le

theorem minIdx_le_maxIdx {vmin vmax i0 i1 d : ℝ} (hd : 0 < d) (hv : vmin ≤ vmax) :
    minIdx vmin i0 i1 d ≤ maxIdx vmax i0 i1 d := by
  rw [minIdx, maxIdx]
  apply trunc_mono
  have hmm : min i0 i1 ≤ max i0 i1 := min_le_max
  have h2 : (vmin - max i0 i1) / d ≤ (vmax - min i0 i1) / d := by
    gcongr
  linarith

/-! ### `rem_euclid` facts -/

theorem remEuclid_nonneg {a b : ℝ} (hb : 0 < b) : 0 ≤ remEuclid a b := by
  have h : (⌊a / b⌋ : ℝ) ≤ a / b := Int.floor_le (a / b)
  have h2 : (⌊a / b⌋ : ℝ) * b ≤ a := by
    rw [← le_div_iff₀ hb]
    exact h
  rw [remEuclid]
  nlinarith

theorem remEuclid_lt {a b : ℝ} (hb : 0 < b) : remEuclid a b < b := by
  have h : a / b < (⌊a / b⌋ : ℝ) + 1 := Int.lt_floor_add_one (a / b)
  have h2 : a < ((⌊a / b⌋ : ℝ) + 1) * b := by
    rw [div_lt_iff₀ hb] at h
    exact h
  have h3 : ((⌊a / b⌋ : ℝ) + 1) * b = b * (⌊a / b⌋ : ℝ) + b := by ring
  rw [remEuclid]
  linarith

theorem remEuclid_eq_self {a b : ℝ} (hb : 0 < b) (h0 : 0 ≤ a) (hab : a < b) :
    remEuclid a b = a := by
  have h1 : ⌊a / b⌋ = 0 := by
    rw [Int.floor_eq_iff]
    refine ⟨by push_cast; exact div_nonneg h0 hb.le, ?_⟩
    push_cast
    rw [zero_add, div_lt_one hb]
    exact hab
  rw [remEuclid, h1]
  push_cast
  ring

theorem remEuclid_add_180 (a : ℝ) :
    remEuclid (a + 180) 360 =
      if remEuclid a 360 < 180 then remEuclid a 360 + 180 else remEuclid a 360 - 180 := by
  have hu : (a + 180) / 360 = a / 360 + 1 / 2 := by ring
  by_cases h : remEuclid a 360 < 180
  · have hf : ⌊a / 360 + 1 / 2⌋ = ⌊a / 360⌋ := by
      rw [Int.floor_eq_iff]
      constructor
      · have := Int.floor_le (a / 360)
        linarith
      · rw [remEuclid] at h
        linarith
    rw [if_pos h, remEuclid, hu, hf, remEuclid]
    ring
  · have h' : 180 ≤ remEuclid a 360 := le_of_not_lt h
    rw [remEuclid] at h'
    have hf : ⌊a / 360 + 1 / 2⌋ = ⌊a / 360⌋ + 1 := by
      rw [Int.floor_eq_iff]
      constructor
      · push_cast
        linarith
      · have := Int.lt_floor_add_one (a / 360)
        push_cast
        linarith
    rw [if_neg h, remEuclid, hu, hf, remEuclid]
    push_cast
    ring

/-! ### Angle-normalization facts -/

theorem normTheta_nonneg (theta : ℝ) : 0 ≤ normTheta theta := by
  have h0 : 0 ≤ remEuclid theta 360 := remEuclid_nonneg (by norm_num)
  rw [normTheta]
  by_cases h : 180 ≤ remEuclid theta 360
  · rw [if_pos h]
    linarith
  · rw [if_neg h]
    exact h0

theorem normTheta_lt_180 (theta : ℝ) : normTheta theta < 180 := by
  have h1 : remEuclid theta 360 < 360 := remEuclid_lt (by norm_num)
  rw [normTheta]
  by_cases h : 180 ≤ remEuclid theta 360
  · rw [if_pos h]
    linarith
  · rw [if_neg h]
    linarith [not_le.mp h]

theorem normTheta_add_180 (theta : ℝ) : normTheta (theta + 180) = normTheta theta := by
  have h0 : 0 ≤ remEuclid theta 360 := remEuclid_nonneg (by norm_num)
  have h1 : remEuclid theta 360 < 360 := remEuclid_lt (by norm_num)
  rw [normTheta, normTheta, remEuclid_add_180]
  by_cases h : remEuclid theta 360 < 180
  · rw [if_pos h, if_pos (by linarith), if_neg (not_le.mpr h)]
    ring
  · rw [if_neg h, if_neg (by linarith : ¬ (180:ℝ) ≤ remEuclid theta 360 - 180),
        if_pos (le_of_not_lt h)]

theorem normStep_add_180 (theta step : ℝ) : normStep (theta + 180) (-step) = normStep theta step := by
  have h0 : 0 ≤ remEuclid theta 360 := remEuclid_nonneg (by norm_num)
  have h1 : remEuclid theta 360 < 360 := remEuclid_lt (by norm_num)
  rw [normStep, normStep, remEuclid_add_180]
  by_cases h : remEuclid theta 360 < 180
  · rw [if_pos h, if_pos (by linarith), if_neg (not_le.mpr h), neg_neg]
  · rw [if_neg h, if_neg (by linarith : ¬ (180:ℝ) ≤ remEuclid theta 360 - 180),
        if_pos (le_of_not_lt h)]

/-! ### Facts about `FRAC_1_SQRT_2` and the trigonometric bounds -/

theorem FRAC_1_SQRT_2_eq : FRAC_1_SQRT_2 = Real.sqrt 2 / 2 := by
  have h2 : (0:ℝ) < Real.sqrt 2 := Real.sqrt_pos.mpr (by norm_num)
  rw [FRAC_1_SQRT_2, inv_eq_one_div, div_eq_div_iff h2.ne' (by norm_num : (2:ℝ) ≠ 0), one_mul]
  exact (Real.mul_self_sqrt (by norm_num)).symm

theorem FRAC_1_SQRT_2_pos : 0 < FRAC_1_SQRT_2 := by
  rw [FRAC_1_SQRT_2]
  exact inv_pos.mpr (Real.sqrt_pos.mpr (by norm_num))

theorem one_le_sqrt_two : (1:ℝ) ≤ Real.sqrt 2 := by
  rw [show (1:ℝ) = Real.sqrt 1 from Real.sqrt_one.symm]
  exact Real.sqrt_le_sqrt (by norm_num)

theorem FRAC_1_SQRT_2_le_one : FRAC_1_SQRT_2 ≤ 1 := by
  rw [FRAC_1_SQRT_2]
  exact inv_le_one_of_one_le₀ one_le_sqrt_two

theorem sqrt_two_half_le_sin {x : ℝ} (h1 : pi / 4 ≤ x) (h2 : x ≤ 3 * pi / 4) :
    Real.sqrt 2 / 2 ≤ Real.sin x := by
  have habs : |pi / 2 - x| ≤ pi / 4 := by
    rw [abs_le]
    constructor <;> linarith
  have hc : Real.cos (pi / 4) ≤ Real.cos |pi / 2 - x| := by
    apply Real.cos_le_cos_of_nonneg_of_le_pi (abs_nonneg _) (by linarith [Real.pi_pos]) habs
  rw [Real.cos_abs, Real.cos_pi_div_two_sub] at hc
  rw [Real.cos_pi_div_four] at hc
  exact hc

theorem sqrt_two_half_le_cos {x : ℝ} (h1 : 0 ≤ x) (h2 : x ≤ pi / 4) :
    Real.sqrt 2 / 2 ≤ Real.cos x := by
  have hc : Real.cos (pi / 4) ≤ Real.cos x :=
    Real.cos_le_cos_of_nonneg_of_le_pi h1 (by linarith [Real.pi_pos]) h2
  rw [Real.cos_pi_div_four] at hc
  exact hc

theorem cos_le_neg_sqrt_two_half {x : ℝ} (h1 : 3 * pi / 4 ≤ x) (h2 : x ≤ pi) :
    Real.cos x ≤ -(Real.sqrt 2 / 2) := by
  have hc : Real.cos x ≤ Real.cos (3 * pi / 4) :=
    Real.cos_le_cos_of_nonneg_of_le_pi (by linarith [Real.pi_pos]) h2 h1
  have h3 : Real.cos (3 * pi / 4) = -(Real.sqrt 2 / 2) := by
    rw [show 3 * pi / 4 = pi - pi / 4 by ring, Real.cos_pi_sub, Real.cos_pi_div_four]
  rw [h3] at hc
  exact hc

/-! ### Evaluating `cos_sin_degrees` -/

theorem cos_sin_degrees_zero : cos_sin_degrees 0 = .ok (1, 0) := by
  rw [cos_sin_degrees, if_neg (not_not_intro ⟨le_refl 0, by norm_num⟩), if_pos rfl]

theorem cos_sin_degrees_45 : cos_sin_degrees 45 = .ok (FRAC_1_SQRT_2, FRAC_1_SQRT_2) := by
  rw [cos_sin_degrees, if_neg (not_not_intro ⟨by norm_num, by norm_num⟩),
      if_neg (by norm_num), if_pos rfl]

theorem cos_sin_degrees_90 : cos_sin_degrees 90 = .ok (0, 1) := by
  rw [cos_sin_degrees, if_neg (not_not_intro ⟨by norm_num, by norm_num⟩),
      if_neg (by norm_num), if_neg (by norm_num), if_pos rfl]

theorem cos_sin_degrees_135 : cos_sin_degrees 135 = .ok (-FRAC_1_SQRT_2, FRAC_1_SQRT_2) := by
  rw [cos_sin_degrees, if_neg (not_not_intro ⟨by norm_num, by norm_num⟩),
      if_neg (by norm_num), if_neg (by norm_num), if_neg (by norm_num), if_pos rfl]

/-- On the asserted range `[0, 180)`, `cos_sin_degrees` succeeds, and the
component the selected branch divides by has magnitude at least `1/√2`. -/
theorem cos_sin_degrees_ok {theta : ℝ} (h0 : 0 ≤ theta) (h1 : theta < 180) :
    ∃ cs : ℝ × ℝ, cos_sin_degrees theta = .ok cs ∧
      ((45 ≤ theta ∧ theta < 135) → FRAC_1_SQRT_2 ≤ cs.2) ∧
      (¬ (45 ≤ theta ∧ theta < 135) → FRAC_1_SQRT_2 ≤ |cs.1|) := by
  by_cases hz : theta = 0
  · subst hz
    refine ⟨(1, 0), cos_sin_degrees_zero, fun h => absurd h.1 (by norm_num), fun _ => ?_⟩
    rw [abs_one]
    exact FRAC_1_SQRT_2_le_one
  · by_cases h45 : theta = 45
    · subst h45
      exact ⟨(FRAC_1_SQRT_2, FRAC_1_SQRT_2), cos_sin_degrees_45, fun _ => le_refl _,
        fun hc => absurd ⟨le_refl _, by norm_num⟩ hc⟩
    · by_cases h90 : theta = 90
      · subst h90
        refine ⟨(0, 1), cos_sin_degrees_90, fun _ => FRAC_1_SQRT_2_le_one,
          fun hc => absurd ⟨by norm_num, by norm_num⟩ hc⟩
      · by_cases h135 : theta = 135
        · subst h135
          refine ⟨(-FRAC_1_SQRT_2, FRAC_1_SQRT_2), cos_sin_degrees_135,
            fun h => absurd h.2 (by norm_num), fun _ => ?_⟩
          rw [abs_neg, abs_of_pos FRAC_1_SQRT_2_pos]
        · refine ⟨(Real.cos (theta * pi / 180), Real.sin (theta * pi / 180)), ?_, ?_, ?_⟩
          · rw [cos_sin_degrees, if_neg (not_not_intro ⟨h0, h1⟩),
              if_neg hz, if_neg h45, if_neg h90, if_neg h135]
          · rintro ⟨ha, hb⟩
            rw [FRAC_1_SQRT_2_eq]
            apply sqrt_two_half_le_sin
            · nlinarith [Real.pi_pos, mul_nonneg (by linarith : (0:ℝ) ≤ theta - 45) Real.pi_pos.le]
            · nlinarith [Real.pi_pos, mul_nonneg (by linarith : (0:ℝ) ≤ 135 - theta) Real.pi_pos.le]
          · intro hc
            rw [FRAC_1_SQRT_2_eq]
            rcases not_and_or.mp hc with hlt | hge
            · have hlt' : theta < 45 := lt_of_not_le hlt
              have hcos : Real.sqrt 2 / 2 ≤ Real.cos (theta * pi / 180) := by
                apply sqrt_two_half_le_cos
                · exact div_nonneg (mul_nonneg h0 Real.pi_pos.le) (by norm_num)
                · nlinarith [Real.pi_pos, mul_nonneg (by linarith : (0:ℝ) ≤ 45 - theta) Real.pi_pos.le]
              rw [abs_of_pos (lt_of_lt_of_le (by positivity) hcos)]
              exact hcos
            · have hge' : 135 ≤ theta := le_of_not_lt hge
              have hcos : Real.cos (theta * pi / 180) ≤ -(Real.sqrt 2 / 2) := by
                apply cos_le_neg_sqrt_two_half
                · nlinarith [Real.pi_pos, mul_nonneg (by linarith : (0:ℝ) ≤ theta - 135) Real.pi_pos.le]
                · nlinarith [Real.pi_pos, mul_nonneg (by linarith : (0:ℝ) ≤ 180 - theta) Real.pi_pos.le]
              have hneg : Real.cos (theta * pi / 180) < 0 :=
                lt_of_le_of_lt hcos (neg_lt_zero.mpr (by positivity))
              rw [abs_of_neg hneg]
              linarith

/-! ### Structure of `projectGrid` results -/

theorem normStep_ne_zero {theta step : ℝ} (h : step ≠ 0) : normStep theta step ≠ 0 := by
  rw [normStep]
  by_cases hc : 180 ≤ remEuclid theta 360
  · rw [if_pos hc]
    exact neg_ne_zero.mpr h
  · rw [if_neg hc]
    exact h

theorem idxRange_ne_nil {lo hi : ℤ} (h : lo ≤ hi) : idxRange lo hi ≠ [] := by
  intro hnil
  have hmem : lo ∈ idxRange lo hi := mem_idxRange.mpr ⟨le_refl lo, h⟩
  rw [hnil] at hmem
  cases hmem

theorem horizSegments_ne_nil {b : Rect} {cos sin cx cy step : ℝ}
    (hsin : sin ≠ 0) (hstep : step ≠ 0) (hv : b.min_y ≤ b.max_y) :
    horizSegments b cos sin cx cy step ≠ [] := by
  have hd : 0 < |step / sin| := abs_pos.mpr (div_ne_zero hstep hsin)
  rw [horizSegments]
  intro h
  exact idxRange_ne_nil (minIdx_le_maxIdx hd hv) (List.map_eq_nil_iff.mp h)

theorem vertSegments_ne_nil {b : Rect} {cos sin cx cy step : ℝ}
    (hcos : cos ≠ 0) (hstep : step ≠ 0) (hv : b.min_x ≤ b.max_x) :
    vertSegments b cos sin cx cy step ≠ [] := by
  have hd : 0 < |step / cos| := abs_pos.mpr (div_ne_zero hstep hcos)
  rw [vertSegments]
  intro h
  exact idxRange_ne_nil (minIdx_le_maxIdx hd hv) (List.map_eq_nil_iff.mp h)

/-- A projection either rejects a zero step or succeeds: no internal assert
(angle range or trig magnitude) ever fires, and in the successful case the
segments are nonempty whenever the viewport is nondegenerate. -/
theorem projectGrid_shape (b : Rect) (g : Grid) :
    (g.step = 0 ∧ projectGrid b g = .error .invalidGrid) ∨
    (g.step ≠ 0 ∧ ∃ segs, projectGrid b g = .ok segs ∧
      (b.min_x ≤ b.max_x → b.min_y ≤ b.max_y → segs ≠ [])) := by
  by_cases hs : g.step = 0
  · left
    refine ⟨hs, ?_⟩
    rw [projectGrid, if_pos hs]
  · right
    refine ⟨hs, ?_⟩
    obtain ⟨cs, hcs, hsin, hcos⟩ :=
      cos_sin_degrees_ok (normTheta_nonneg g.theta) (normTheta_lt_180 g.theta)
    have hstep' : normStep g.theta g.step ≠ 0 := normStep_ne_zero hs
    by_cases hb : 45 ≤ normTheta g.theta ∧ normTheta g.theta < 135
    · have hsin' : cs.2 ≠ 0 :=
        ne_of_gt (lt_of_lt_of_le FRAC_1_SQRT_2_pos (hsin hb))
      refine ⟨horizSegments b cs.1 cs.2
        (g.cx - cs.1 * normStep g.theta g.step * g.center_position)
        (g.cy - cs.2 * normStep g.theta g.step * g.center_position)
        (normStep g.theta g.step), ?_, ?_⟩
      · simp only [projectGrid, if_neg hs, hcs, if_pos hb,
          if_neg (not_not_intro (hsin hb))]
      · intro _ hy
        exact horizSegments_ne_nil hsin' hstep' hy
    · have hcos' : cs.1 ≠ 0 :=
        abs_pos.mp (lt_of_lt_of_le FRAC_1_SQRT_2_pos (hcos hb))
      refine ⟨vertSegments b cs.1 cs.2
        (g.cx - cs.1 * normStep g.theta g.step * g.center_position)
        (g.cy - cs.2 * normStep g.theta g.step * g.center_position)
        (normStep g.theta g.step), ?_, ?_⟩
      · simp only [projectGrid, if_neg hs, hcs, if_neg hb,
          if_neg (not_not_intro (hcos hb))]
      · intro hx _
        exact vertSegments_ne_nil hcos' hstep' hx

theorem projectGrids_ok_or_invalidGrid (b : Rect) (gs : List Grid) :
    (∃ groups, projectGrids b gs = .ok groups) ∨
      projectGrids b gs = .error .invalidGrid := by
  induction gs with
  | nil => exact Or.inl ⟨[], rfl⟩
  | cons g gs ih =>
    rcases projectGrid_shape b g with ⟨_, herr⟩ | ⟨_, segs, hok, _⟩
    · right
      rw [projectGrids, herr]
    · rcases ih with ⟨groups, hg⟩ | hg
      · left
        exact ⟨_, by rw [projectGrids, hok, hg]⟩
      · right
        rw [projectGrids, hok, hg]

theorem projectGrids_error_of_mem {b : Rect} {gs : List Grid} {g : Grid}
    (hmem : g ∈ gs) (hz : g.step = 0) :
    projectGrids b gs = .error .invalidGrid := by
  induction gs with
  | nil => cases hmem
  | cons g0 gs ih =>
    rcases List.mem_cons.mp hmem with rfl | hmem'
    · rcases projectGrid_shape b g with ⟨_, herr⟩ | ⟨hne, _⟩
      · rw [projectGrids, herr]
      · exact absurd hz hne
    · rcases projectGrid_shape b g0 with ⟨_, herr⟩ | ⟨_, segs, hok, _⟩
      · rw [projectGrids, herr]
      · rw [projectGrids, hok, ih hmem']

/-! ### Concrete evaluations -/

/-- The example grid of §8.7: `{cx:50, cy:50, step:20, center_position:0, theta:0}`. -/
def exGrid : Grid :=
  { cx := 50, cy := 50, step := 20, center_position := 0, theta := 0,
    stroke := none, stroke_width := none }

/-- The example viewport of §8.7: `{min_x:0, max_x:100, min_y:0, max_y:100}`. -/
def exBounds : Rect := { min_x := 0, max_x := 100, min_y := 0, max_y := 100 }

/-- The example collection of §8.7: the example viewport with the one example grid. -/
def exCollection : GridCollection :=
  { bounds := exBounds, clip := none, stroke := none, stroke_width := none, grids := [exGrid] }

/-- The seven vertical segments the program emits for the example grid. -/
def exSegments : List Segment :=
  [{ x1 := -10, x2 := -10, y1 := 0, y2 := 100 },
   { x1 := 10, x2 := 10, y1 := 0, y2 := 100 },
   { x1 := 30, x2 := 30, y1 := 0, y2 := 100 },
   { x1 := 50, x2 := 50, y1 := 0, y2 := 100 },
   { x1 := 70, x2 := 70, y1 := 0, y2 := 100 },
   { x1 := 90, x2 := 90, y1 := 0, y2 := 100 },
   { x1 := 110, x2 := 110, y1 := 0, y2 := 100 }]

theorem remEuclid_zero : remEuclid 0 360 = 0 :=
  remEuclid_eq_self (by norm_num) (le_refl 0) (by norm_num)

theorem normTheta_zero : normTheta 0 = 0 := by
  rw [normTheta, remEuclid_zero, if_neg (by norm_num)]

theorem normStep_zero (s : ℝ) : normStep 0 s = s := by
  rw [normStep, remEuclid_zero, if_neg (by norm_num)]

theorem minIdx_ex : minIdx 0 50 50 20 = -3 := by
  have hq : ((0:ℝ) - max (50:ℝ) 50) / 20 - 1 = -7/2 := by norm_num
  rw [minIdx, hq, trunc, if_neg (by norm_num)]
  refine Int.ceil_eq_iff.mpr ?_
  constructor
  · push_cast
    norm_num
  · push_cast
    norm_num

theorem maxIdx_ex : maxIdx 100 50 50 20 = 3 := by
  have hq : ((100:ℝ) - min (50:ℝ) 50) / 20 + 1 = 7/2 := by norm_num
  rw [maxIdx, hq, trunc, if_pos (by norm_num)]
  refine Int.floor_eq_iff.mpr ?_
  constructor
  · push_cast
    norm_num
  · push_cast
    norm_num

theorem vertSegments_ex : vertSegments exBounds 1 0 50 50 20 = exSegments := by
  rw [vertSegments]
  simp only [exBounds]
  norm_num
  rw [minIdx_ex, maxIdx_ex,
    show idxRange (-3) 3 = [-3, -2, -1, 0, 1, 2, 3] from by decide]
  simp only [List.map]
  rw [exSegments]
  norm_num [Segment.mk.injEq]

theorem projectGrid_ex : projectGrid exBounds exGrid = .ok exSegments := by
  rw [projectGrid]
  simp only [exGrid, normTheta_zero, normStep_zero, cos_sin_degrees_zero]
  rw [if_neg (by norm_num : ¬ (20:ℝ) = 0), if_neg (by norm_num : ¬ ((45:ℝ) ≤ 0 ∧ (0:ℝ) < 135))]
  rw [if_neg (not_not_intro (by rw [abs_one]; exact FRAC_1_SQRT_2_le_one))]
  norm_num
  exact vertSegments_ex

theorem to_svg_ex :
    to_svg exCollection =
      .ok { viewBox := (0, 0, 100, 100), clipRect := (0, 0, 100, 100),
            stroke := "black", stroke_width := none,
            groups := [{ stroke := none, stroke_width := none, segments := exSegments }] } := by
  have heff : effectiveViewport exCollection = exBounds := rfl
  rw [to_svg, heff]
  rw [if_pos (by rw [exBounds]; norm_num), if_pos (by rw [exBounds]; norm_num)]
  have hgrids : exCollection.grids = [exGrid] := rfl
  rw [hgrids, projectGrids, projectGrid_ex, projectGrids]
  simp only [exCollection, exBounds, exGrid]
  norm_num

/-! ### Coverage of the viewport by the emitted index range -/

/-- In an arithmetic progression of lines `a + d*i` whose emitted range
reaches below and above `p`, some emitted line lies within `d` below `p`. -/
theorem exists_index_cover {a d p : ℝ} {lo hi : ℤ} (hd : 0 < d)
    (hlo : a + d * lo ≤ p) (hhi : p ≤ a + d * hi) :
    ∃ i : ℤ, lo ≤ i ∧ i ≤ hi ∧ a + d * i ≤ p ∧ p ≤ a + d * i + d := by
  have hj1 : (⌊(p - a) / d⌋ : ℝ) ≤ (p - a) / d := Int.floor_le _
  have hj2 : (p - a) / d < ⌊(p - a) / d⌋ + 1 := Int.lt_floor_add_one _
  have hj1' : a + d * (⌊(p - a) / d⌋ : ℝ) ≤ p := by
    have h := mul_le_mul_of_nonneg_left hj1 hd.le
    rw [mul_div_cancel₀ _ hd.ne'] at h
    linarith
  have hj2' : p < a + d * (⌊(p - a) / d⌋ : ℝ) + d := by
    have h := mul_lt_mul_of_pos_left hj2 hd
    rw [mul_div_cancel₀ _ hd.ne'] at h
    nlinarith
  have hjlo : lo ≤ ⌊(p - a) / d⌋ := by
    apply Int.le_floor.mpr
    rw [le_div_iff₀ hd]
    nlinarith
  have hjhi : ⌊(p - a) / d⌋ ≤ hi := by
    have hr : (⌊(p - a) / d⌋ : ℝ) ≤ (hi : ℝ) := by
      have h1 : d * (⌊(p - a) / d⌋ : ℝ) ≤ d * (hi : ℝ) := by linarith
      exact le_of_mul_le_mul_left h1 hd
    exact_mod_cast hr
  exact ⟨⌊(p - a) / d⌋, hjlo, hjhi, hj1', hj2'.le⟩

theorem horizSegments_cover {b : Rect} {cos sin cx cy step p : ℝ}
    (hsin : sin ≠ 0) (hstep : step ≠ 0) (h1 : b.min_y ≤ p) (h2 : p ≤ b.max_y) :
    (∃ s ∈ horizSegments b cos sin cx cy step, s.y1 ≤ p ∧ p ≤ s.y1 + |step / sin|) ∧
    (∃ s ∈ horizSegments b cos sin cx cy step, s.y2 ≤ p ∧ p ≤ s.y2 + |step / sin|) := by
  have hd : 0 < |step / sin| := abs_pos.mpr (div_ne_zero hstep hsin)
  simp only [horizSegments]
  set i0 := cy + cos / sin * (cx - b.min_x) with hi0
  set i1 := cy + cos / sin * (cx - b.max_x) with hi1
  set d := |step / sin| with hdd
  set lo := minIdx b.min_y i0 i1 d with hlodef
  set hi := maxIdx b.max_y i0 i1 d with hhidef
  have hlo := @minIdx_le b.min_y i0 i1 d hd
  have hhi := @le_maxIdx b.max_y i0 i1 d hd
  constructor
  · obtain ⟨i, hilo, hihi, hle, hge⟩ :=
      @exists_index_cover i0 d p lo hi hd
        (by have := le_max_left i0 i1; linarith)
        (by have := min_le_left i0 i1; linarith)
    exact ⟨_, List.mem_map.mpr ⟨i, mem_idxRange.mpr ⟨hilo, hihi⟩, rfl⟩, hle, hge⟩
  · obtain ⟨i, hilo, hihi, hle, hge⟩ :=
      @exists_index_cover i1 d p lo hi hd
        (by have := le_max_right i0 i1; linarith)
        (by have := min_le_right i0 i1; linarith)
    exact ⟨_, List.mem_map.mpr ⟨i, mem_idxRange.mpr ⟨hilo, hihi⟩, rfl⟩, hle, hge⟩

theorem vertSegments_cover {b : Rect} {cos sin cx cy step p : ℝ}
    (hcos : cos ≠ 0) (hstep : step ≠ 0) (h1 : b.min_x ≤ p) (h2 : p ≤ b.max_x) :
    (∃ s ∈ vertSegments b cos sin cx cy step, s.x1 ≤ p ∧ p ≤ s.x1 + |step / cos|) ∧
    (∃ s ∈ vertSegments b cos sin cx cy step, s.x2 ≤ p ∧ p ≤ s.x2 + |step / cos|) := by
  have hd : 0 < |step / cos| := abs_pos.mpr (div_ne_zero hstep hcos)
  simp only [vertSegments]
  set i0 := cx + sin / cos * (cy - b.min_y) with hi0
  set i1 := cx + sin / cos * (cy - b.max_y) with hi1
  set d := |step / cos| with hdd
  set lo := minIdx b.min_x i0 i1 d with hlodef
  set hi := maxIdx b.max_x i0 i1 d with hhidef
  have hlo := @minIdx_le b.min_x i0 i1 d hd
  have hhi := @le_maxIdx b.max_x i0 i1 d hd
  constructor
  · obtain ⟨i, hilo, hihi, hle, hge⟩ :=
      @exists_index_cover i0 d p lo hi hd
        (by have := le_max_left i0 i1; linarith)
        (by have := min_le_left i0 i1; linarith)
    exact ⟨_, List.mem_map.mpr ⟨i, mem_idxRange.mpr ⟨hilo, hihi⟩, rfl⟩, hle, hge⟩
  · obtain ⟨i, hilo, hihi, hle, hge⟩ :=
      @exists_index_cover i1 d p lo hi hd
        (by have := le_max_right i0 i1; linarith)
        (by have := min_le_right i0 i1; linarith)
    exact ⟨_, List.mem_map.mpr ⟨i, mem_idxRange.mpr ⟨hilo, hihi⟩, rfl⟩, hle, hge⟩

/-! ### Further example inputs -/

/-- A grid specification with `step = 0`. -/
def exZeroGrid : Grid :=
  { cx := 0, cy := 0, step := 0, center_position := 0, theta := 0,
    stroke := none, stroke_width := none }

/-- The example viewport holding only the zero-step grid. -/
def exZeroCollection : GridCollection :=
  { bounds := exBounds, clip := none, stroke := none, stroke_width := none,
    grids := [exZeroGrid] }

/-- 200×200 bounds with the 100×100 example rectangle as clip, no grids. -/
def clipCollection : GridCollection :=
  { bounds := { min_x := 0, max_x := 200, min_y := 0, max_y := 200 },
    clip := some exBounds, stroke := none, stroke_width := none, grids := [] }

/-- The document produced for `clipCollection`: canvas sized by `bounds`,
clip rectangle sized by `clip`. -/
def clipDocument : SvgDocument :=
  { viewBox := (0, 0, 200, 200), clipRect := (0, 0, 100, 100),
    stroke := "black", stroke_width := none, groups := [] }

/-- Degenerate `bounds` (`min_x > max_x`) but a valid `clip`. -/
def invalidBoundsCollection : GridCollection :=
  { bounds := { min_x := 1, max_x := 0, min_y := 0, max_y := 1 },
    clip := some exBounds, stroke := none, stroke_width := none, grids := [] }

/-- Valid `bounds` but a degenerate `clip` (`min_x = max_x`). -/
def badClipCollection : GridCollection :=
  { bounds := exBounds,
    clip := some { min_x := 5, max_x := 5, min_y := 0, max_y := 10 },
    stroke := none, stroke_width := none, grids := [] }

theorem to_svg_clip_ex : to_svg clipCollection = .ok clipDocument := by
  have heff : effectiveViewport clipCollection = exBounds := rfl
  rw [to_svg, heff, if_pos (by rw [exBounds]; norm_num : exBounds.min_x < exBounds.max_x),
    if_pos (by rw [exBounds]; norm_num : exBounds.min_y < exBounds.max_y)]
  rw [show clipCollection.grids = [] from rfl, projectGrids]
  rw [clipDocument]
  norm_num [clipCollection, exBounds]

theorem to_svg_invalidBounds :
    to_svg invalidBoundsCollection =
      .ok { viewBox := (1, 0, -1, 1), clipRect := (0, 0, 100, 100),
            stroke := "black", stroke_width := none, groups := [] } := by
  have heff : effectiveViewport invalidBoundsCollection = exBounds := rfl
  rw [to_svg, heff, if_pos (by rw [exBounds]; norm_num : exBounds.min_x < exBounds.max_x),
    if_pos (by rw [exBounds]; norm_num : exBounds.min_y < exBounds.max_y)]
  rw [show invalidBoundsCollection.grids = [] from rfl, projectGrids]
  norm_num [invalidBoundsCollection, exBounds]

/-! ### The claims -/

/-- C1 (amended): assembly fails with `InvalidViewport`, before any grid
projection runs and with no output produced, whenever the *effective*
viewport — the clip rectangle when present, otherwise the bounds
rectangle — has `min_x ≥ max_x` or `min_y ≥ max_y`.  (The claim as stated
also requires failure when `bounds` alone is degenerate while a valid
`clip` is present; `claim1_counterexample` shows the program accepts that
input, because line 44 of main.rs validates only `clip.unwrap_or(bounds)`.) -/
theorem claim1_invalid_viewport (c : GridCollection)
    (h : ¬ ((effectiveViewport c).min_x < (effectiveViewport c).max_x ∧
            (effectiveViewport c).min_y < (effectiveViewport c).max_y)) :
    to_svg c = .error .invalidViewport := by
  rw [to_svg]
  by_cases hx : (effectiveViewport c).min_x < (effectiveViewport c).max_x
  · rw [if_pos hx, if_neg (fun hy => h ⟨hx, hy⟩)]
  · rw [if_neg hx]

/-- Witness for C1 (amended): a degenerate clip rectangle (`min_x = max_x`)
makes `to_svg` fail with `InvalidViewport`. -/
theorem claim1_witness : to_svg badClipCollection = .error .invalidViewport :=
  claim1_invalid_viewport badClipCollection (by
    rw [show effectiveViewport badClipCollection =
      { min_x := 5, max_x := 5, min_y := 0, max_y := 10 } from rfl]
    norm_num)

/-- Counterexample to C1 as stated: a collection whose `bounds` violates the
Rect invariant (`min_x = 1 > 0 = max_x`) while a valid `clip` is present is
*not* rejected — `to_svg` succeeds, so the claim's "bounds rectangle or
(when present) clip rectangle" is wrong about `bounds`. -/
theorem claim1_counterexample :
    invalidBoundsCollection.bounds.max_x ≤ invalidBoundsCollection.bounds.min_x ∧
    to_svg invalidBoundsCollection ≠ .error .invalidViewport := by
  constructor
  · rw [show invalidBoundsCollection.bounds =
      { min_x := 1, max_x := 0, min_y := 0, max_y := 1 } from rfl]
    norm_num
  · rw [to_svg_invalidBounds]
    simp

/-- C2 (amended): in each projection branch the code computes
`min_idx = trunc(q − 1)` and `max_idx = trunc(q' + 1)` with truncation
toward zero (`as i64`), which equals `floor(q) − 1` only when `q ≥ 1`
(otherwise it is `ceil(q) − 1`) and equals `ceil(q') + 1` only when the
ceiling is reached from `q' < −1` (for `q' ≥ −1` it is `floor(q') + 1`).
`q`/`q'` are the margin-free quotients
`(viewport_min − max(intercepts))/spacing` and
`(viewport_max − min(intercepts))/spacing`. -/
theorem claim2_amended (vmin vmax i0 i1 d : ℝ) :
    minIdx vmin i0 i1 d =
      (if 1 ≤ (vmin - max i0 i1) / d then ⌊(vmin - max i0 i1) / d⌋ - 1
       else ⌈(vmin - max i0 i1) / d⌉ - 1) ∧
    maxIdx vmax i0 i1 d =
      (if -1 ≤ (vmax - min i0 i1) / d then ⌊(vmax - min i0 i1) / d⌋ + 1
       else ⌈(vmax - min i0 i1) / d⌉ + 1) :=
  ⟨trunc_sub_one_eq _, trunc_add_one_eq _⟩

/-- Counterexample to C2 as stated: at the vertical-branch arguments arising
from the §8.7 example (viewport min 0 / max 100, both intercepts 50, spacing
20, so `q = −2.5` and `q' = 2.5`), the code's `min_idx` is `trunc(−3.5) = −3`
but `floor(−2.5) − 1 = −4`, and the code's `max_idx` is `trunc(3.5) = 3` but
`ceil(2.5) + 1 = 4`. -/
theorem claim2_counterexample :
    minIdx 0 50 50 20 ≠ ⌊((0:ℝ) - max (50:ℝ) 50) / 20⌋ - 1 ∧
    maxIdx 100 50 50 20 ≠ ⌈((100:ℝ) - min (50:ℝ) 50) / 20⌉ + 1 := by
  have hf : ⌊((0:ℝ) - max (50:ℝ) 50) / 20⌋ = -3 := by
    rw [show ((0:ℝ) - max (50:ℝ) 50) / 20 = -5/2 by norm_num]
    refine Int.floor_eq_iff.mpr ⟨?_, ?_⟩ <;> push_cast <;> norm_num
  have hc : ⌈((100:ℝ) - min (50:ℝ) 50) / 20⌉ = 3 := by
    rw [show ((100:ℝ) - min (50:ℝ) 50) / 20 = 5/2 by norm_num]
    refine Int.ceil_eq_iff.mpr ⟨?_, ?_⟩ <;> push_cast <;> norm_num
  rw [minIdx_ex, maxIdx_ex, hf, hc]
  constructor <;> decide

/-- C3: projecting a grid with angle `theta + 180` and step `-s` yields a
segment list identical (same endpoints, same order) to projecting the same
grid with angle `theta` and step `s` — for every viewport, grid, `theta`
and `s` (in particular every nonzero `s`). -/
theorem claim3_angle_symmetry (b : Rect) (g : Grid) :
    projectGrid b { g with theta := g.theta + 180, step := -g.step } = projectGrid b g := by
  simp only [projectGrid, normTheta_add_180, normStep_add_180, neg_eq_zero]

/-- C4: for every input `theta` the normalized angle lies in `[0, 180)`, and
the three internal assertions — the angle-range assert in `cos_sin_degrees`
and the two trig-magnitude asserts guarding the branch divisions — can never
fire: `projectGrid` never returns the corresponding errors, so every branch
division is by a component of magnitude at least `1/√2`. -/
theorem claim4_asserts_never_fire (b : Rect) (g : Grid) :
    (0 ≤ normTheta g.theta ∧ normTheta g.theta < 180) ∧
    projectGrid b g ≠ .error .angleAssert ∧
    projectGrid b g ≠ .error .sinAssert ∧
    projectGrid b g ≠ .error .cosAssert := by
  refine ⟨⟨normTheta_nonneg _, normTheta_lt_180 _⟩, ?_, ?_, ?_⟩ <;>
    · rcases projectGrid_shape b g with ⟨_, herr⟩ | ⟨_, segs, hok, _⟩
      · rw [herr]
        simp
      · rw [hok]
        simp

/-- C5: for nonzero step (and a nonzero divisor component, which the taken
branch guarantees), the emitted segments cover the viewport along the
branch axis: every coordinate `p` within the viewport extent lies within
one spacing (`|step/sin|` resp. `|step/cos|`, the distance between
consecutive emitted lines measured along that axis) above some emitted
segment's intercept, on both measuring rows — so the covered range is never
narrower than the viewport and no wider gap exists between consecutive
covering lines. -/
theorem claim5_full_coverage (b : Rect) (cos sin cx cy step p : ℝ) :
    (sin ≠ 0 → step ≠ 0 → b.min_y ≤ p → p ≤ b.max_y →
      (∃ s ∈ horizSegments b cos sin cx cy step, s.y1 ≤ p ∧ p ≤ s.y1 + |step / sin|) ∧
      (∃ s ∈ horizSegments b cos sin cx cy step, s.y2 ≤ p ∧ p ≤ s.y2 + |step / sin|)) ∧
    (cos ≠ 0 → step ≠ 0 → b.min_x ≤ p → p ≤ b.max_x →
      (∃ s ∈ vertSegments b cos sin cx cy step, s.x1 ≤ p ∧ p ≤ s.x1 + |step / cos|) ∧
      (∃ s ∈ vertSegments b cos sin cx cy step, s.x2 ≤ p ∧ p ≤ s.x2 + |step / cos|)) :=
  ⟨fun hsin hstep h1 h2 => horizSegments_cover hsin hstep h1 h2,
   fun hcos hstep h1 h2 => vertSegments_cover hcos hstep h1 h2⟩

/-- Witness for C5 at concrete branch inputs (viewport 0..100 square,
`cos = sin = 1`, `step = 20`, `p = 50`). -/
theorem claim5_witness :
    ((∃ s ∈ horizSegments exBounds 1 1 50 50 20, s.y1 ≤ 50 ∧ 50 ≤ s.y1 + |(20:ℝ) / 1|) ∧
     (∃ s ∈ horizSegments exBounds 1 1 50 50 20, s.y2 ≤ 50 ∧ 50 ≤ s.y2 + |(20:ℝ) / 1|)) ∧
    ((∃ s ∈ vertSegments exBounds 1 1 50 50 20, s.x1 ≤ 50 ∧ 50 ≤ s.x1 + |(20:ℝ) / 1|) ∧
     (∃ s ∈ vertSegments exBounds 1 1 50 50 20, s.x2 ≤ 50 ∧ 50 ≤ s.x2 + |(20:ℝ) / 1|)) :=
  ⟨(claim5_full_coverage exBounds 1 1 50 50 20 50).1 one_ne_zero (by norm_num)
      (by rw [exBounds]; norm_num) (by rw [exBounds]; norm_num),
   (claim5_full_coverage exBounds 1 1 50 50 20 50).2 one_ne_zero (by norm_num)
      (by rw [exBounds]; norm_num) (by rw [exBounds]; norm_num)⟩

/-- C6: every grid specification with `step = 0` fails with `InvalidGrid`,
and (reference behavior) one such grid in a collection with a valid
effective viewport aborts the entire run — `to_svg` returns the error and
produces no document for any grid. -/
theorem claim6_zero_step :
    (∀ (b : Rect) (g : Grid), g.step = 0 → projectGrid b g = .error .invalidGrid) ∧
    (∀ c : GridCollection,
      (effectiveViewport c).min_x < (effectiveViewport c).max_x →
      (effectiveViewport c).min_y < (effectiveViewport c).max_y →
      (∃ g ∈ c.grids, g.step = 0) → to_svg c = .error .invalidGrid) := by
  constructor
  · intro b g hz
    rcases projectGrid_shape b g with ⟨_, herr⟩ | ⟨hne, _⟩
    · exact herr
    · exact absurd hz hne
  · rintro c hx hy ⟨g, hmem, hz⟩
    rw [to_svg, if_pos hx, if_pos hy, projectGrids_error_of_mem hmem hz]

/-- Witness for C6: the zero-step grid fails with `InvalidGrid`, both alone
and as part of a collection with a valid viewport. -/
theorem claim6_witness :
    projectGrid exBounds exZeroGrid = .error .invalidGrid ∧
    to_svg exZeroCollection = .error .invalidGrid :=
  ⟨claim6_zero_step.1 exBounds exZeroGrid rfl,
   claim6_zero_step.2 exZeroCollection
     (by rw [show effectiveViewport exZeroCollection = exBounds from rfl, exBounds]; norm_num)
     (by rw [show effectiveViewport exZeroCollection = exBounds from rfl, exBounds]; norm_num)
     ⟨exZeroGrid, by rw [show exZeroCollection.grids = [exZeroGrid] from rfl]; exact List.mem_singleton.mpr rfl, rfl⟩⟩

/-- C7: whenever `to_svg` succeeds, the document's viewBox is sized from
`bounds`, while the clip rectangle and every line-extent computation (the
projections producing the groups) use the effective viewport — `clip` when
present, `bounds` otherwise. -/
theorem claim7_bounds_vs_clip (c : GridCollection) (doc : SvgDocument)
    (h : to_svg c = .ok doc) :
    doc.viewBox = (c.bounds.min_x, c.bounds.min_y,
                   c.bounds.max_x - c.bounds.min_x, c.bounds.max_y - c.bounds.min_y) ∧
    doc.clipRect = ((effectiveViewport c).min_x, (effectiveViewport c).min_y,
                    (effectiveViewport c).max_x - (effectiveViewport c).min_x,
                    (effectiveViewport c).max_y - (effectiveViewport c).min_y) ∧
    projectGrids (effectiveViewport c) c.grids = .ok doc.groups := by
  rw [to_svg] at h
  by_cases hx : (effectiveViewport c).min_x < (effectiveViewport c).max_x
  · rw [if_pos hx] at h
    by_cases hy : (effectiveViewport c).min_y < (effectiveViewport c).max_y
    · rw [if_pos hy] at h
      rcases projectGrids_ok_or_invalidGrid (effectiveViewport c) c.grids with ⟨groups, hg⟩ | hg
      · rw [hg] at h
        have hdoc := Except.ok.inj h
        subst hdoc
        exact ⟨rfl, rfl, by rw [hg]⟩
      · rw [hg] at h
        simp at h
    · rw [if_neg hy] at h
      simp at h
  · rw [if_neg hx] at h
    simp at h

/-- Witness for C7 at a collection whose clip (100×100) differs from its
bounds (200×200). -/
theorem claim7_witness :
    clipDocument.viewBox = (clipCollection.bounds.min_x, clipCollection.bounds.min_y,
      clipCollection.bounds.max_x - clipCollection.bounds.min_x,
      clipCollection.bounds.max_y - clipCollection.bounds.min_y) ∧
    clipDocument.clipRect = ((effectiveViewport clipCollection).min_x,
      (effectiveViewport clipCollection).min_y,
      (effectiveViewport clipCollection).max_x - (effectiveViewport clipCollection).min_x,
      (effectiveViewport clipCollection).max_y - (effectiveViewport clipCollection).min_y) ∧
    projectGrids (effectiveViewport clipCollection) clipCollection.grids =
      .ok clipDocument.groups :=
  claim7_bounds_vs_clip clipCollection clipDocument to_svg_clip_ex

/-- C8: at the four axis-aligned normalized angles 0, 45, 90, 135 the
function `cos_sin_degrees` returns the exact closed-form pairs `(1, 0)`,
`(1/√2, 1/√2)`, `(0, 1)`, `(−1/√2, 1/√2)` from its special-case branches
rather than values of the radian-conversion branch. -/
theorem claim8_axis_aligned_exact :
    cos_sin_degrees 0 = .ok (1, 0) ∧
    cos_sin_degrees 45 = .ok (1 / Real.sqrt 2, 1 / Real.sqrt 2) ∧
    cos_sin_degrees 90 = .ok (0, 1) ∧
    cos_sin_degrees 135 = .ok (-(1 / Real.sqrt 2), 1 / Real.sqrt 2) := by
  have h : FRAC_1_SQRT_2 = 1 / Real.sqrt 2 := by rw [FRAC_1_SQRT_2, one_div]
  refine ⟨cos_sin_degrees_zero, ?_, cos_sin_degrees_90, ?_⟩
  · rw [cos_sin_degrees_45, h]
  · rw [cos_sin_degrees_135, h]

/-- C9: on the §8.7 example — 0..100 square viewport, one grid
`{cx:50, cy:50, step:20, center_position:0, theta:0}` — the (vertical)
projection emits exactly the seven segments at `x = −10, 10, 30, 50, 70,
90, 110` spanning `y = 0..100` in ascending-x order, so the output contains
the five required segments at `x = 10, 30, 50, 70, 90` in ascending order. -/
theorem claim9_end_to_end :
    to_svg exCollection =
      .ok { viewBox := (0, 0, 100, 100), clipRect := (0, 0, 100, 100),
            stroke := "black", stroke_width := none,
            groups := [{ stroke := none, stroke_width := none, segments := exSegments }] } ∧
    List.Sublist
      [{ x1 := 10, x2 := 10, y1 := 0, y2 := 100 },
       { x1 := 30, x2 := 30, y1 := 0, y2 := 100 },
       { x1 := 50, x2 := 50, y1 := 0, y2 := 100 },
       { x1 := 70, x2 := 70, y1 := 0, y2 := 100 },
       { x1 := 90, x2 := 90, y1 := 0, y2 := 100 }] exSegments := by
  refine ⟨to_svg_ex, ?_⟩
  rw [exSegments]
  exact List.Sublist.cons _ (List.sublist_append_left _ _)

/-- C10: for every grid with nonzero step and every valid viewport the
computed index range is nonempty (`min_idx ≤ max_idx` whenever the spacing
is positive and the viewport extent is ordered), so the projection succeeds
with a nonempty segment list: no grid yields an empty group. -/
theorem claim10_nonempty :
    (∀ vmin vmax i0 i1 d : ℝ, 0 < d → vmin ≤ vmax →
      minIdx vmin i0 i1 d ≤ maxIdx vmax i0 i1 d) ∧
    (∀ (b : Rect) (g : Grid), g.step ≠ 0 → b.min_x < b.max_x → b.min_y < b.max_y →
      resultSegments (projectGrid b g) ≠ []) := by
  constructor
  · intro vmin vmax i0 i1 d hd hv
    exact minIdx_le_maxIdx hd hv
  · intro b g hs hx hy
    rcases projectGrid_shape b g with ⟨hz, _⟩ | ⟨_, segs, hok, hne⟩
    · exact absurd hz hs
    · rw [hok]
      exact hne hx.le hy.le

/-- Witness for C10 at the §8.7 example grid and viewport. -/
theorem claim10_witness :
    minIdx 0 50 50 20 ≤ maxIdx 100 50 50 20 ∧
    resultSegments (projectGrid exBounds exGrid) ≠ [] :=
  ⟨claim10_nonempty.1 0 100 50 50 20 (by norm_num) (by norm_num),
   claim10_nonempty.2 exBounds exGrid
     (by rw [show exGrid.step = 20 from rfl]; norm_num)
     (by rw [exBounds]; norm_num)
     (by rw [exBounds]; norm_num)⟩

end GridGen
